import Mathlib

/-!
Shallow embedding of `main.py` of the visitas-api service.

The persisted table `visits` (SQLite, `INTEGER PRIMARY KEY AUTOINCREMENT`)
is modelled as a list of rows in rowid (insertion) order together with the
AUTOINCREMENT counter `next_id` (the next id SQLite will assign; with the
AUTOINCREMENT keyword ids are monotonically increasing and never reused).

Timestamps (`date`, `created_at`, `updated_at`) are ISO-8601 TEXT columns in
the source; SQLite compares TEXT with bytewise (BINARY) collation, which on
such strings coincides with the lexicographic `String` order, so they are
modelled as `String` with its linear order.  `REAL` columns (`lat`, `lon`)
are only stored and returned, never computed with, so their payload is
modelled by `Int` (any type with decidable equality would do).
-/

/-- A row of the `visits` table (columns in schema order, `init_db`). -/
structure Visit where
  id : Nat
  title : String
  description : Option String
  date : Option String
  cep : Option String
  address : Option String
  city : Option String
  uf : Option String
  lat : Option Int
  lon : Option Int
  responsible : Option String
  status : Option String
  created_at : Option String
  updated_at : Option String
  deriving DecidableEq, Repr

/-- The request body `VisitIn` (pydantic model): `title` required, the rest
optional. -/
structure VisitIn where
  title : String
  description : Option String
  date : Option String
  cep : Option String
  address : Option String
  lat : Option Int
  lon : Option Int
  responsible : Option String
  status : Option String
  deriving DecidableEq, Repr

/-- The database state: rows in rowid order plus the AUTOINCREMENT counter. -/
structure DB where
  visits : List Visit
  next_id : Nat
  deriving DecidableEq, Repr

/-- The state produced by `init_db`: empty `visits` table, first id is 1. -/
def init_db : DB := { visits := [], next_id := 1 }

/-- The error responses the handlers produce: FastAPI request validation
(HTTP 422), `HTTPException(404, detail)`, `HTTPException(502, detail)`. -/
inductive ApiErr where
  | validationError
  | notFound (detail : String)
  | badGateway (detail : String)
  deriving DecidableEq, Repr

/-- Python `payload.status or "scheduled"`: `None` and `""` are falsy. -/
def orScheduled : Option String → String
  | none => "scheduled"
  | some s => if s = "" then "scheduled" else s

/-- `create_visit` (POST /visits): inserts a row with `city`/`uf` NULL,
`status` defaulted by `or "scheduled"`, `created_at = updated_at = now`
(`datetime.utcnow().isoformat()`), and returns the new id (`cur.lastrowid`)
as `{"id": vid}`. -/
def create_visit (db : DB) (payload : VisitIn) (now : String) : DB × Nat :=
  let v : Visit :=
    { id := db.next_id
      title := payload.title
      description := payload.description
      date := payload.date
      cep := payload.cep
      address := payload.address
      city := none
      uf := none
      lat := payload.lat
      lon := payload.lon
      responsible := payload.responsible
      status := some (orScheduled payload.status)
      created_at := some now
      updated_at := some now }
  ({ visits := db.visits ++ [v], next_id := db.next_id + 1 }, db.next_id)

/-- `get_visit` (GET /visits/{visit_id}): the path parameter is declared
`int` with `Path(..., gt=0)`, so a non-integer segment or a non-positive
integer is rejected by request validation (`none` models an unparseable
segment); then `SELECT * FROM visits WHERE id = ?` / `fetchone`, raising
404 "Visit not found" on an empty result. -/
def get_visit (db : DB) (raw : Option Int) : Except ApiErr Visit :=
  match raw with
  | none => .error .validationError
  | some visit_id =>
    if 0 < visit_id then
      match db.visits.find? (fun v => (v.id : Int) = visit_id) with
      | some row => .ok row
      | none => .error (.notFound "Visit not found")
    else .error .validationError

/-- The SET clause of `update_visit`: every `VisitIn` field plus
`updated_at = now`; `id`, `city`, `uf`, `created_at` are not in the SET
list. -/
def updateRow (payload : VisitIn) (now : String) (v : Visit) : Visit :=
  { v with
    title := payload.title
    description := payload.description
    date := payload.date
    cep := payload.cep
    address := payload.address
    lat := payload.lat
    lon := payload.lon
    responsible := payload.responsible
    status := some (orScheduled payload.status)
    updated_at := some now }

/-- `update_visit` (PUT /visits/{visit_id}): `UPDATE visits SET ... WHERE
id=?`, then commit and return `{"updated": visit_id}` unconditionally —
there is no existence check and no error path. -/
def update_visit (db : DB) (visit_id : Int) (payload : VisitIn) (now : String) :
    DB × Int :=
  ({ db with
      visits := db.visits.map fun v =>
        if (v.id : Int) = visit_id then updateRow payload now v else v },
   visit_id)

/-- `delete_visit` (DELETE /visits/{visit_id}): `DELETE FROM visits WHERE
id = ?`, then commit and return `{"deleted": visit_id}` unconditionally.
The second component is the number of rows the DELETE affected
(`cur.rowcount`), not part of the HTTP response. -/
def delete_visit (db : DB) (visit_id : Int) : DB × Int × Nat :=
  ({ db with visits := db.visits.filter fun v => ¬((v.id : Int) = visit_id) },
   visit_id,
   db.visits.countP fun v => (v.id : Int) = visit_id)

/-- The sort key `COALESCE(date, created_at)` of the list query (both TEXT;
a row written by this API always has `created_at` set, `getD ""` covers the
never-written NULL case). -/
def sortKey (v : Visit) : String := (v.date.getD (v.created_at.getD ""))

/-- The `ORDER BY COALESCE(date, created_at) DESC` order: `a` before `b`
when the key of `b` is at most the key of `a`. -/
def visitDescOrder (a b : Visit) : Prop := sortKey b ≤ sortKey a

instance : DecidableRel visitDescOrder :=
  fun a b => inferInstanceAs (Decidable (sortKey b ≤ sortKey a))

instance : IsTotal Visit visitDescOrder :=
  ⟨fun a b => le_total (sortKey b) (sortKey a)⟩

instance : IsTrans Visit visitDescOrder :=
  ⟨fun _ _ _ hab hbc => le_trans hbc hab⟩

/-- The result order of the list query: a stable descending sort on
`COALESCE(date, created_at)` (rowid order among equal keys). -/
def sortVisits (l : List Visit) : List Visit := List.insertionSort visitDescOrder l

/-- `list_visits` (GET /visits): `page = max(page, 1)`,
`size = min(max(size, 1), 100)`, `offset = (page - 1) * size`; the Python
truthiness test `if status:` adds `WHERE status = ?` only when the filter is
neither `None` nor the empty string; then
`ORDER BY COALESCE(date, created_at) DESC LIMIT size OFFSET offset`. -/
def list_visits (db : DB) (page size : Int) (status : Option String) :
    List Visit :=
  let page := max page 1
  let size := min (max size 1) 100
  let offset := (page - 1) * size
  let filtered :=
    match status with
    | some s => if s = "" then db.visits
                else db.visits.filter fun v => v.status = some s
    | none => db.visits
  ((sortVisits filtered).drop offset.toNat).take size.toNat

/-- `"".join(filter(str.isdigit, cep))`. -/
def stripNonDigits (s : String) : String := ⟨s.data.filter Char.isDigit⟩

/-- The body ViaCEP answers with: the address fields (all optional in the
upstream JSON) and the explicit `"erro"` flag (`data.get("erro")`). -/
structure CepPayload where
  cep : Option String
  logradouro : Option String
  complemento : Option String
  bairro : Option String
  localidade : Option String
  uf : Option String
  erro : Bool
  deriving DecidableEq, Repr

/-- Outcome of the outbound `client.get(url, timeout=10)`: an exception
(timeout, connection failure), or an HTTP response with a status code and a
decoded body. -/
inductive UpstreamResult where
  | transportError
  | response (statusCode : Nat) (body : CepPayload)
  deriving DecidableEq, Repr

/-- `via_cep` (GET /address/cep/{cep}): strips non-digits, dispatches to
ViaCEP (modelled by `fetch`, keyed by the cleaned code), then: exception →
502 "Erro ao acessar ViaCEP"; `status_code != 200` → 502 "ViaCEP retornou
erro"; `data.get("erro")` truthy → 404 "CEP não encontrado"; otherwise the
decoded body is returned verbatim. -/
def via_cep (cep : String) (fetch : String → UpstreamResult) :
    Except ApiErr CepPayload :=
  let cep_clean := stripNonDigits cep
  match fetch cep_clean with
  | .transportError => .error (.badGateway "Erro ao acessar ViaCEP")
  | .response statusCode body =>
    if statusCode ≠ 200 then .error (.badGateway "ViaCEP retornou erro")
    else if body.erro then .error (.notFound "CEP não encontrado")
    else .ok body

/-- One observable transition of the service: a handler runs at a wall-clock
instant.  The clock component is the latest `datetime.utcnow().isoformat()`
value produced so far; successive readings of a well-behaved UTC clock are
monotone, which is the `t ≤ t'` side condition on the writing steps.
`get_visit` and `list_visits` do not write, so they keep the state. -/
inductive Step : DB × String → DB × String → Prop where
  | create (db : DB) (t t' : String) (p : VisitIn) (h : t ≤ t') :
      Step (db, t) ((create_visit db p t').1, t')
  | update (db : DB) (t t' : String) (i : Int) (p : VisitIn) (h : t ≤ t') :
      Step (db, t) ((update_visit db i p t').1, t')
  | delete (db : DB) (t : String) (i : Int) :
      Step (db, t) ((delete_visit db i).1, t)
  | get (db : DB) (t : String) (raw : Option Int) : Step (db, t) (db, t)
  | list (db : DB) (t : String) (page size : Int) (status : Option String) :
      Step (db, t) (db, t)

/-- States reachable from the freshly initialised database. -/
def Reachable (s : DB × String) : Prop :=
  Relation.ReflTransGen Step (init_db, "") s

/-- The store invariant of the spec: ids are unique, positive and below the
AUTOINCREMENT counter (hence never reused), `status` is set and non-empty,
and `created_at ≤ updated_at ≤ clock`. -/
def StoreInv (db : DB) (clock : String) : Prop :=
  (db.visits.map (·.id)).Nodup ∧
  0 < db.next_id ∧
  ∀ v ∈ db.visits,
    0 < v.id ∧ v.id < db.next_id ∧
    (∃ s, v.status = some s ∧ s ≠ "") ∧
    (∃ c u, v.created_at = some c ∧ v.updated_at = some u ∧ c ≤ u ∧ u ≤ clock)

/-! ### Concrete sample data -/

/-- A sample request body (the §8 end-to-end scenario's visit). -/
def exPayload : VisitIn :=
  { title := "Inspection A", description := none, date := none, cep := none,
    address := none, lat := some (-19), lon := some (-43),
    responsible := none, status := none }

/-- A sample stored row. -/
def exVisit : Visit :=
  { id := 1, title := "Inspection A", description := none, date := none,
    cep := none, address := none, city := none, uf := none,
    lat := some (-19), lon := some (-43), responsible := none,
    status := some "scheduled",
    created_at := some "2025-01-01T00:00:00",
    updated_at := some "2025-01-01T00:00:00" }

/-- A sample database holding `exVisit`. -/
def exDb : DB := { visits := [exVisit], next_id := 2 }

/-! ### Helper lemmas -/

theorem orScheduled_ne_empty (o : Option String) : orScheduled o ≠ "" := by
  cases o with
  | none => simp [orScheduled]
  | some s =>
    by_cases h : s = "" <;> simp [orScheduled, h]

theorem find?_visits_append (l : List Visit) (v : Visit) (i : Int)
    (h : ∀ w ∈ l, (w.id : Int) ≠ i) :
    (l ++ [v]).find? (fun w => (w.id : Int) = i) =
      [v].find? (fun w => (w.id : Int) = i) := by
  induction l with
  | nil => simp
  | cons a l ih =>
    have ha : (decide ((a.id : Int) = i)) = false :=
      decide_eq_false (h a (List.mem_cons_self a l))
    simp only [List.cons_append, List.find?_cons, ha]
    exact ih fun w hw => h w (List.mem_cons_of_mem a hw)

/-! ### C1 -/

/-- C1: the spec requires `update` on a missing id to signal NotFound, but
`update_visit` has no existence check: on the freshly initialised (empty)
store, updating id 1 runs an UPDATE that matches zero rows, leaves the
store unchanged, and still returns the success body `{"updated": 1}` — the
silent no-op the spec's Open Question warns about. -/
theorem update_visit_missing_id_silently_succeeds :
    update_visit init_db 1 exPayload "2025-01-02T00:00:00" = (init_db, 1) ∧
    (update_visit init_db 1 exPayload "2025-01-02T00:00:00").2 = 1 := by
  constructor <;> rfl

/-! ### C2 -/

/-- C2: on any store whose ids are below the AUTOINCREMENT counter (every
reachable store), `create_visit` returns a positive fresh id, and
`get_visit` of that id returns a record whose fields equal the input, with
`city`/`uf` null, `status` defaulted to `"scheduled"` exactly when the
supplied status was omitted or empty, and `created_at = updated_at =` the
creation timestamp. -/
theorem create_then_get (db : DB) (p : VisitIn) (now : String)
    (hpos : 0 < db.next_id)
    (hfresh : ∀ v ∈ db.visits, v.id < db.next_id) :
    0 < (create_visit db p now).2 ∧
    get_visit (create_visit db p now).1 (some ((create_visit db p now).2 : Int)) =
      .ok { id := db.next_id, title := p.title, description := p.description,
            date := p.date, cep := p.cep, address := p.address,
            city := none, uf := none, lat := p.lat, lon := p.lon,
            responsible := p.responsible,
            status := some (orScheduled p.status),
            created_at := some now, updated_at := some now } ∧
    ((p.status = none ∨ p.status = some "") →
      orScheduled p.status = "scheduled") ∧
    (∀ s, p.status = some s → s ≠ "" → orScheduled p.status = s) := by
  refine ⟨hpos, ?_, ?_, ?_⟩
  · show get_visit _ (some (db.next_id : Int)) = _
    rw [get_visit]
    rw [if_pos (by exact_mod_cast hpos)]
    rw [show (create_visit db p now).1.visits = db.visits ++ [_] from rfl]
    rw [find?_visits_append]
    · simp
    · intro w hw
      have := hfresh w hw
      intro hEq
      have : w.id = db.next_id := by exact_mod_cast hEq
      omega
  · rintro (h | h) <;> simp [orScheduled, h]
  · intro s hs hne
    simp [orScheduled, hs, hne]

/-- C2 witness: a concrete create on the sample store, hypotheses checked
by evaluation. -/
theorem create_then_get_witness :
    (0 < exDb.next_id ∧ ∀ v ∈ exDb.visits, v.id < exDb.next_id) ∧
    0 < (create_visit exDb exPayload "2025-02-01T09:00:00").2 :=
  ⟨⟨by decide, by decide⟩,
   (create_then_get exDb exPayload "2025-02-01T09:00:00" (by decide)
      (by decide)).1⟩

/-! ### C9 -/

theorem find?_of_mem_nodup (l : List Visit) (i : Int) (v : Visit)
    (hnd : (l.map (·.id)).Nodup) (hm : v ∈ l) (hid : (v.id : Int) = i) :
    l.find? (fun w => (w.id : Int) = i) = some v := by
  induction l with
  | nil => cases hm
  | cons a l ih =>
    rw [List.map_cons, List.nodup_cons] at hnd
    rcases List.mem_cons.mp hm with rfl | hm'
    · rw [List.find?_cons, decide_eq_true hid]
    · have ha : (decide ((a.id : Int) = i)) = false := by
        apply decide_eq_false
        intro hEq
        apply hnd.1
        have : a.id = v.id := by exact_mod_cast hEq.trans hid.symm
        exact this ▸ List.mem_map_of_mem (·.id) hm'
      rw [List.find?_cons, ha]
      exact ih hnd.2 hm'

/-- C9: `get_visit` returns the stored record for a present id, NotFound
for every positive absent id, and a request-validation failure (not a
NotFound) for every non-positive integer and for a non-integer path
segment. -/
theorem get_visit_cases (db : DB) (raw : Option Int) :
    (raw = none → get_visit db raw = .error .validationError) ∧
    (∀ i, raw = some i → i ≤ 0 →
      get_visit db raw = .error .validationError) ∧
    (∀ i, raw = some i → 0 < i → (∀ v ∈ db.visits, (v.id : Int) ≠ i) →
      get_visit db raw = .error (.notFound "Visit not found")) ∧
    (∀ i v, raw = some i → 0 < i → (db.visits.map (·.id)).Nodup →
      v ∈ db.visits → (v.id : Int) = i → get_visit db raw = .ok v) := by
  refine ⟨?_, ?_, ?_, ?_⟩
  · rintro rfl; rfl
  · rintro i rfl hle
    rw [get_visit, if_neg (by omega)]
  · rintro i rfl hpos habs
    rw [get_visit, if_pos hpos]
    have : db.visits.find? (fun w => (w.id : Int) = i) = none := by
      rw [List.find?_eq_none]
      intro w hw
      simpa using habs w hw
    rw [this]
  · rintro i v rfl hpos hnd hm hid
    rw [get_visit, if_pos hpos, find?_of_mem_nodup db.visits i v hnd hm hid]

/-- C9 witness: the sample store, id 1 present, id 7 absent, id -3 and a
non-integer segment rejected by validation. -/
theorem get_visit_cases_witness :
    get_visit exDb (some 1) = .ok exVisit ∧
    get_visit exDb (some 7) = .error (.notFound "Visit not found") ∧
    get_visit exDb (some (-3)) = .error .validationError ∧
    get_visit exDb none = .error .validationError := by
  refine ⟨?_, ?_, ?_, ?_⟩
  · exact (get_visit_cases exDb (some 1)).2.2.2 1 exVisit rfl (by decide)
      (by decide) (by decide) (by decide)
  · exact (get_visit_cases exDb (some 7)).2.2.1 7 rfl (by decide)
      (by decide)
  · exact (get_visit_cases exDb (some (-3))).2.1 (-3) rfl (by decide)
  · exact (get_visit_cases exDb none).1 rfl

/-! ### C7 -/

theorem countP_id_le_one (l : List Visit) (i : Int)
    (hnd : (l.map (·.id)).Nodup) :
    (l.countP fun v => (v.id : Int) = i) ≤ 1 := by
  induction l with
  | nil => simp
  | cons a l ih =>
    rw [List.map_cons, List.nodup_cons] at hnd
    rw [List.countP_cons]
    by_cases h : (a.id : Int) = i
    · have hz : (l.countP fun v => (v.id : Int) = i) = 0 := by
        rw [List.countP_eq_zero]
        intro b hb
        simp only [decide_eq_true_eq]
        intro hbi
        apply hnd.1
        have : a.id = b.id := by exact_mod_cast h.trans hbi.symm
        exact this ▸ List.mem_map_of_mem (·.id) hb
      simp [hz, h]
    · simpa [h] using ih hnd.2

/-- C7: `delete_visit` never errors and echoes the id in its success body;
it removes exactly the rows carrying the given id (leaving all others, and
the whole store when the id is absent — including every non-positive id,
which is never stored), reports at most one affected row on a store with
unique ids, and a second delete of the same id leaves the store as after
the first and reports zero rows. -/
theorem delete_visit_spec (db : DB) (i : Int)
    (hnd : (db.visits.map (·.id)).Nodup) :
    (delete_visit db i).2.1 = i ∧
    (∀ v ∈ (delete_visit db i).1.visits, (v.id : Int) ≠ i) ∧
    (∀ v ∈ db.visits, (v.id : Int) ≠ i → v ∈ (delete_visit db i).1.visits) ∧
    ((∀ v ∈ db.visits, (v.id : Int) ≠ i) → (delete_visit db i).1 = db) ∧
    (delete_visit db i).2.2 ≤ 1 ∧
    delete_visit (delete_visit db i).1 i = ((delete_visit db i).1, i, 0) := by
  have habsent : ∀ d : DB, (∀ v ∈ d.visits, (v.id : Int) ≠ i) →
      delete_visit d i = (d, i, 0) := by
    intro d h
    have h1 : (d.visits.filter fun v => ¬((v.id : Int) = i)) = d.visits :=
      List.filter_eq_self.mpr fun v hv => by simpa using h v hv
    have h2 : (d.visits.countP fun v => (v.id : Int) = i) = 0 :=
      List.countP_eq_zero.mpr fun v hv => by simpa using h v hv
    simp only [delete_visit, h1, h2]
  have hgone : ∀ v ∈ (delete_visit db i).1.visits, (v.id : Int) ≠ i := by
    intro v hv
    have := (List.mem_filter.mp hv).2
    simpa using this
  refine ⟨rfl, hgone, ?_, ?_, countP_id_le_one db.visits i hnd, ?_⟩
  · intro v hv hne
    exact List.mem_filter.mpr ⟨hv, by simpa using hne⟩
  · intro habs
    exact congrArg Prod.fst (habsent db habs)
  · exact habsent (delete_visit db i).1 hgone

/-- C7 witness: deleting id 1 then id 1 again on the sample store, and
deleting the absent id -5. -/
theorem delete_visit_spec_witness :
    (exDb.visits.map (·.id)).Nodup ∧
    (delete_visit exDb (-5)).2.1 = -5 ∧
    (delete_visit exDb 1).2.2 ≤ 1 :=
  ⟨by decide, (delete_visit_spec exDb (-5) (by decide)).1,
   (delete_visit_spec exDb 1 (by decide)).2.2.2.2.1⟩

/-! ### C8 -/

/-- A sample upstream body with some fields absent. -/
def exCepBody : CepPayload :=
  { cep := some "30140-071", logradouro := some "Avenida Afonso Pena",
    complemento := none, bairro := none, localidade := some "Belo Horizonte",
    uf := some "MG", erro := false }

/-- C8: `via_cep` strips every non-digit character before dispatch (the
upstream is only ever queried at the cleaned code, and re-cleaning changes
nothing), and produces exactly one of: BadGateway on a transport failure,
BadGateway on an upstream status other than 200, NotFound when the
upstream body carries its `erro` flag, and otherwise the upstream body
verbatim — absent fields included, never defaulted. -/
theorem via_cep_spec (raw : String) (fetch : String → UpstreamResult) :
    (stripNonDigits raw).data.all Char.isDigit = true ∧
    via_cep raw fetch = via_cep (stripNonDigits raw) fetch ∧
    (fetch (stripNonDigits raw) = .transportError →
      via_cep raw fetch = .error (.badGateway "Erro ao acessar ViaCEP")) ∧
    (∀ st body, fetch (stripNonDigits raw) = .response st body → st ≠ 200 →
      via_cep raw fetch = .error (.badGateway "ViaCEP retornou erro")) ∧
    (∀ body, fetch (stripNonDigits raw) = .response 200 body →
      body.erro = true →
      via_cep raw fetch = .error (.notFound "CEP não encontrado")) ∧
    (∀ body, fetch (stripNonDigits raw) = .response 200 body →
      body.erro = false → via_cep raw fetch = .ok body) := by
  have hclean : stripNonDigits (stripNonDigits raw) = stripNonDigits raw := by
    show String.mk _ = String.mk _
    rw [stripNonDigits, List.filter_filter]
    simp
  refine ⟨?_, ?_, ?_, ?_, ?_, ?_⟩
  · rw [List.all_eq_true]
    intro c hc
    exact (List.mem_filter.mp hc).2
  · rw [via_cep, via_cep, hclean]
  · intro h
    rw [via_cep, h]
  · intro st body h hst
    rw [via_cep, h]
    simp only [if_pos hst]
  · intro body h herr
    rw [via_cep, h]
    simp [herr]
  · intro body h herr
    rw [via_cep, h]
    simp [herr]

/-- A concrete upstream: answers the cleaned sample code with a 200 body,
everything else with a transport failure. -/
def exFetch : String → UpstreamResult := fun c =>
  if c = "30140071" then .response 200 exCepBody else .transportError

/-- C8 witness: a concrete raw code with punctuation against `exFetch`. -/
theorem via_cep_spec_witness :
    (stripNonDigits "30140-071").data.all Char.isDigit = true ∧
    via_cep "30140-071" exFetch = .ok exCepBody :=
  ⟨(via_cep_spec "30140-071" exFetch).1,
   (via_cep_spec "30140-071" exFetch).2.2.2.2.2 exCepBody (by decide)
      (by decide)⟩

/-! ### C3 -/

/-- C3: `list_visits` with no filter clamps `page` to at least 1 (the
default 1 is a fixed point) and `size` into [1, 100] (the default 50 is a
fixed point), and returns the slice at offset `(page-1)*size` of length at
most `size` of the store sorted by `COALESCE(date, created_at)`
descending: the result is pairwise ordered most-recent-first, and the
sorted list it is cut from is a permutation of the stored rows. -/
theorem list_visits_spec (db : DB) (page size : Int) :
    1 ≤ max page 1 ∧
    1 ≤ min (max size 1) 100 ∧ min (max size 1) 100 ≤ 100 ∧
    max (1 : Int) 1 = 1 ∧ min (max (50 : Int) 1) 100 = 50 ∧
    list_visits db page size none =
      ((sortVisits db.visits).drop
        ((max page 1 - 1) * min (max size 1) 100).toNat).take
        (min (max size 1) 100).toNat ∧
    (list_visits db page size none).Pairwise visitDescOrder ∧
    (list_visits db page size none).length ≤ (min (max size 1) 100).toNat ∧
    (sortVisits db.visits).Perm db.visits := by
  refine ⟨le_max_right page 1, ?_, min_le_right _ 100, by decide, by decide,
    rfl, ?_, ?_, List.perm_insertionSort visitDescOrder db.visits⟩
  · rw [le_min_iff]
    exact ⟨le_max_right size 1, by omega⟩
  · have hs : (sortVisits db.visits).Pairwise visitDescOrder :=
      List.sorted_insertionSort visitDescOrder db.visits
    exact List.Pairwise.sublist
      ((List.take_sublist _ _).trans (List.drop_sublist _ _)) hs
  · exact le_trans (List.length_take_le _ _) (le_refl _)

/-! ### C4 -/

/-- C4 counterexample: Python's `if status:` treats the empty string as
falsy, so `list_visits` with the empty-string filter applies no WHERE
clause at all: on the sample store it returns the row whose status is
`"scheduled"`, while exact matching against `""` would return nothing. -/
theorem list_visits_empty_filter_cex :
    list_visits exDb 1 50 (some "") = [exVisit] ∧
    exVisit.status ≠ some "" ∧
    (exDb.visits.filter fun v => v.status = some "") = [] := by
  refine ⟨by decide, by decide, by decide⟩

/-- C4 (amended): for every NON-empty filter `S`, listing with the filter
equals listing with no filter over the store restricted to the rows whose
status exactly equals `S` (case-sensitive), and every returned row's
status equals `S`; the empty-string filter is instead treated as "no
filter". -/
theorem list_visits_status_filter (db : DB) (page size : Int) (S : String)
    (hS : S ≠ "") :
    list_visits db page size (some S) =
      list_visits
        { visits := db.visits.filter fun v => v.status = some S,
          next_id := db.next_id } page size none ∧
    ∀ v ∈ list_visits db page size (some S), v.status = some S := by
  constructor
  · rw [list_visits, list_visits]
    simp only [if_neg hS]
  · intro v hv
    rw [list_visits] at hv
    simp only [if_neg hS] at hv
    have h1 : v ∈ sortVisits (db.visits.filter fun w => w.status = some S) :=
      List.drop_subset _ _ (List.take_subset _ _ hv)
    have h2 : v ∈ db.visits.filter fun w => w.status = some S :=
      (List.mem_insertionSort visitDescOrder).mp h1
    have := (List.mem_filter.mp h2).2
    simpa using this

/-- C4 witness: the non-empty filter `"scheduled"` on the sample store. -/
theorem list_visits_status_filter_witness :
    ("scheduled" ≠ "") ∧
    ∀ v ∈ list_visits exDb 1 50 (some "scheduled"), v.status = some "scheduled" :=
  ⟨by decide, (list_visits_status_filter exDb 1 50 "scheduled" (by decide)).2⟩

/-! ### C5 -/

/-- C5: on a stable store with unique ids, for every page size `N` in
[1, 50] the first two pages of size `N` are disjoint and concatenate, in
order, to the first page of size `2N`. -/
theorem list_visits_pagination (db : DB) (N : Int)
    (h1 : 1 ≤ N) (h2 : N ≤ 50)
    (hnd : (db.visits.map (·.id)).Nodup) :
    list_visits db 1 N none ++ list_visits db 2 N none =
      list_visits db 1 (2 * N) none ∧
    ∀ v ∈ list_visits db 1 N none, v ∉ list_visits db 2 N none := by
  have hN : max N 1 = N := max_eq_left h1
  have hN' : min N 100 = N := min_eq_left (by omega)
  have h2Na : max (2 * N) 1 = 2 * N := max_eq_left (by omega)
  have h2Nb : min (2 * N) 100 = 2 * N := min_eq_left (by omega)
  have e1 : list_visits db 1 N none = (sortVisits db.visits).take N.toNat := by
    simp only [list_visits, hN, hN']
    norm_num
  have e2 : list_visits db 2 N none =
      ((sortVisits db.visits).drop N.toNat).take N.toNat := by
    simp only [list_visits, hN, hN']
    norm_num
  have e3 : list_visits db 1 (2 * N) none =
      (sortVisits db.visits).take (2 * N).toNat := by
    simp only [list_visits, h2Na, h2Nb]
    norm_num
  have hndl : (sortVisits db.visits).Nodup :=
    ((List.perm_insertionSort visitDescOrder db.visits).nodup_iff).mpr
      (hnd.of_map _)
  have hdisj : List.Disjoint ((sortVisits db.visits).take N.toNat)
      ((sortVisits db.visits).drop N.toNat) :=
    List.disjoint_take_drop hndl (le_refl N.toNat)
  constructor
  · rw [e1, e2, e3, show (2 * N).toNat = N.toNat + N.toNat by omega]
    exact (List.take_add _ _ _).symm
  · intro v hv hv2
    rw [e1] at hv
    rw [e2] at hv2
    exact hdisj hv (List.take_subset _ _ hv2)

/-- C5 witness: page size 1 on the sample store. -/
theorem list_visits_pagination_witness :
    ((1 : Int) ≤ 1 ∧ (1 : Int) ≤ 50 ∧ (exDb.visits.map (·.id)).Nodup) ∧
    list_visits exDb 1 1 none ++ list_visits exDb 2 1 none =
      list_visits exDb 1 2 none :=
  ⟨⟨by decide, by decide, by decide⟩,
   (list_visits_pagination exDb 1 (by decide) (by decide) (by decide)).1⟩

/-! ### C6 -/

theorem id_ne_of_getElem?_nodup (l : List Visit)
    (hnd : (l.map (·.id)).Nodup) (j k : Nat) (w v : Visit)
    (hj : l[j]? = some w) (hk : l[k]? = some v) (hne : j ≠ k) :
    w.id ≠ v.id := by
  intro hEq
  apply hne
  have hj' : (l.map (·.id))[j]? = some w.id := by
    rw [List.getElem?_map, hj, Option.map_some']
  have hk' : (l.map (·.id))[k]? = some v.id := by
    rw [List.getElem?_map, hk, Option.map_some']
  have hlen : j < (l.map (·.id)).length := by
    by_contra hcon
    rw [List.getElem?_eq_none (le_of_not_lt hcon)] at hj'
    exact Option.noConfusion hj'
  exact List.getElem?_inj hlen hnd (by rw [hj', hk', hEq])

/-- C6: on a store with unique ids, updating an existing id rewrites
exactly that row: every mutable field takes the supplied value (`status`
through the `or "scheduled"` default), `updated_at` becomes the supplied
current time (hence does not decrease under a monotone clock), while the
row's `id`, `created_at`, `city` and `uf`, every other row, and the
AUTOINCREMENT counter are all unchanged. -/
theorem update_visit_existing (db : DB) (i : Int) (p : VisitIn) (now : String)
    (k : Nat) (v : Visit)
    (hnd : (db.visits.map (·.id)).Nodup)
    (hk : db.visits[k]? = some v) (hid : (v.id : Int) = i)
    (hclock : ∀ u, v.updated_at = some u → u ≤ now) :
    (update_visit db i p now).1.visits[k]? = some (updateRow p now v) ∧
    (updateRow p now v).id = v.id ∧
    (updateRow p now v).created_at = v.created_at ∧
    (updateRow p now v).city = v.city ∧
    (updateRow p now v).uf = v.uf ∧
    (updateRow p now v).title = p.title ∧
    (updateRow p now v).description = p.description ∧
    (updateRow p now v).date = p.date ∧
    (updateRow p now v).cep = p.cep ∧
    (updateRow p now v).address = p.address ∧
    (updateRow p now v).lat = p.lat ∧
    (updateRow p now v).lon = p.lon ∧
    (updateRow p now v).responsible = p.responsible ∧
    (updateRow p now v).status = some (orScheduled p.status) ∧
    (updateRow p now v).updated_at = some now ∧
    (∀ u u', v.updated_at = some u →
      (updateRow p now v).updated_at = some u' → u ≤ u') ∧
    (∀ j w, j ≠ k → db.visits[j]? = some w →
      (update_visit db i p now).1.visits[j]? = some w) ∧
    (update_visit db i p now).1.next_id = db.next_id := by
  refine ⟨?_, rfl, rfl, rfl, rfl, rfl, rfl, rfl, rfl, rfl, rfl, rfl, rfl,
    rfl, rfl, ?_, ?_, rfl⟩
  · show (db.visits.map _)[k]? = _
    rw [List.getElem?_map, hk, Option.map_some', if_pos hid]
  · intro u u' hu hu'
    have : u' = now := by
      have : some now = some u' := hu'
      exact (Option.some.injEq _ _ ▸ this).symm
    exact this ▸ hclock u hu
  · intro j w hne hj
    show (db.visits.map _)[j]? = _
    rw [List.getElem?_map, hj, Option.map_some', if_neg]
    intro hwi
    exact id_ne_of_getElem?_nodup db.visits hnd j k w v hj hk hne
      (by exact_mod_cast hwi.trans hid.symm)

/-- A second sample row, distinct id and a `date` value. -/
def exVisit2 : Visit :=
  { id := 2, title := "Inspection B", description := none,
    date := some "2025-04-10T14:00:00", cep := none, address := none,
    city := none, uf := none, lat := none, lon := none, responsible := none,
    status := some "done",
    created_at := some "2025-01-02T00:00:00",
    updated_at := some "2025-01-02T00:00:00" }

/-- A sample store with two rows. -/
def exDb2 : DB := { visits := [exVisit, exVisit2], next_id := 3 }

/-- C6 witness: updating id 1 of the two-row sample store at a later
clock; the untouched row 2 and the counter survive. -/
theorem update_visit_existing_witness :
    (exDb2.visits.map (·.id)).Nodup ∧
    (update_visit exDb2 1 exPayload "2025-03-01T00:00:00").1.visits[0]? =
      some (updateRow exPayload "2025-03-01T00:00:00" exVisit) ∧
    (update_visit exDb2 1 exPayload "2025-03-01T00:00:00").1.visits[1]? =
      some exVisit2 := by
  have h := update_visit_existing exDb2 1 exPayload "2025-03-01T00:00:00" 0
    exVisit (by decide) (by decide) (by decide)
    (by
      intro u hu
      have hu' : u = "2025-01-01T00:00:00" := by
        have : some "2025-01-01T00:00:00" = some u := hu
        exact ((Option.some.injEq _ _).mp this).symm
      rw [hu', String.le_iff_toList_le]
      decide)
  exact ⟨by decide, h.1, h.2.2.2.2.2.2.2.2.2.2.2.2.2.2.2.2.1 1 exVisit2
    (by decide) (by decide)⟩

/-! ### C10 -/

theorem nodup_ids_append_fresh (l : List Visit) (v : Visit)
    (hnd : (l.map (·.id)).Nodup) (hfresh : ∀ w ∈ l, w.id < v.id) :
    ((l ++ [v]).map (·.id)).Nodup := by
  rw [List.map_append, List.nodup_append]
  refine ⟨hnd, List.nodup_singleton _, ?_⟩
  intro x hx hx1
  obtain ⟨w, hw, rfl⟩ := List.mem_map.mp hx
  have hx2 : w.id = v.id := by simpa using hx1
  exact absurd hx2 (Nat.ne_of_lt (hfresh w hw))

theorem storeInv_init : StoreInv init_db "" := by
  refine ⟨by simp [init_db], by simp [init_db], ?_⟩
  intro v hv
  simp [init_db] at hv

theorem step_preserves (s s' : DB × String) (hst : Step s s')
    (hinv : StoreInv s.1 s.2) : StoreInv s'.1 s'.2 := by
  obtain ⟨hnd, hpos, hall⟩ := hinv
  cases hst with
  | create db t t' p h =>
    refine ⟨?_, Nat.succ_pos db.next_id, ?_⟩
    · exact nodup_ids_append_fresh db.visits _ hnd
        (fun w hw => (hall w hw).2.1)
    · intro v hv
      rcases List.mem_append.mp hv with hv' | hv'
      · obtain ⟨h1, h2, h3, c, u, hc, hu, hcu, hut⟩ := hall v hv'
        exact ⟨h1, Nat.lt_succ_of_lt h2, h3, c, u, hc, hu, hcu, hut.trans h⟩
      · rcases List.mem_singleton.mp hv' with rfl
        exact ⟨hpos, Nat.lt_succ_self db.next_id,
          ⟨orScheduled p.status, rfl, orScheduled_ne_empty p.status⟩,
          t', t', rfl, rfl, le_refl t', le_refl t'⟩
  | update db t t' i p h =>
    refine ⟨?_, hpos, ?_⟩
    · have hmap : ((update_visit db i p t').1.visits).map (·.id) =
          db.visits.map (·.id) := by
        rw [update_visit, List.map_map]
        apply List.map_congr_left
        intro v _
        by_cases hc : (v.id : Int) = i <;> simp [hc, updateRow]
      rw [hmap]
      exact hnd
    · intro w hw
      obtain ⟨v, hv, rfl⟩ := List.mem_map.mp hw
      obtain ⟨h1, h2, ⟨s0, hs0, hs0ne⟩, c, u, hc, hu, hcu, hut⟩ := hall v hv
      by_cases hcase : (v.id : Int) = i
      · rw [if_pos hcase]
        exact ⟨h1, h2,
          ⟨orScheduled p.status, rfl, orScheduled_ne_empty p.status⟩,
          c, t', hc, rfl, (hcu.trans hut).trans h, le_refl t'⟩
      · rw [if_neg hcase]
        exact ⟨h1, h2, ⟨s0, hs0, hs0ne⟩, c, u, hc, hu, hcu, hut.trans h⟩
  | delete db t i =>
    refine ⟨?_, hpos, ?_⟩
    · exact hnd.sublist (List.Sublist.map _ (List.filter_sublist _))
    · intro v hv
      exact hall v (List.mem_of_mem_filter hv)
  | get db t raw => exact ⟨hnd, hpos, hall⟩
  | list db t page size status => exact ⟨hnd, hpos, hall⟩

/-- C10: every reachable state of the service satisfies the store
invariant — ids are unique, positive and strictly below the AUTOINCREMENT
counter, every row's status is set and non-empty (the `or "scheduled"`
fallback on both writes), and `created_at ≤ updated_at ≤` the clock — and
the counter never decreases across any step (create, get, update, delete,
list), so a deleted id is never handed out again. -/
theorem reachable_storeInv (s : DB × String) (h : Reachable s) :
    StoreInv s.1 s.2 ∧
    ∀ s', Step s s' → s.1.next_id ≤ s'.1.next_id := by
  constructor
  · induction h with
    | refl => exact storeInv_init
    | tail hab hbc ih => exact step_preserves _ _ hbc ih
  · intro s' hst
    cases hst with
    | create db t t' p h => exact Nat.le_succ db.next_id
    | update db t t' i p h => exact le_refl _
    | delete db t i => exact le_refl _
    | get db t raw => exact le_refl _
    | list db t page size status => exact le_refl _

/-- C10 witness: the freshly initialised service is reachable and
satisfies the invariant. -/
theorem reachable_storeInv_witness :
    StoreInv init_db "" ∧ init_db.next_id = 1 :=
  ⟨(reachable_storeInv (init_db, "") Relation.ReflTransGen.refl).1, rfl⟩
